import Mathlib

/-!
# Verification of the RAGCHAT document retrieval store

A shallow embedding of `src/modules/vector_store.py` (class `VectorStore`):
the data model (documents, metadata, embedding matrix, provider identity,
persisted database file) and the operations `embed_text`, `add_documents`,
`search`, `save_database`, `load_database`, `clear`, `is_empty`.

External collaborators are modelled as function parameters:
* the two embedding backends (Google `genai.Embedding` and
  `SentenceTransformer`) as a `Backend` record whose fields return
  `Option (List ℚ)` — `none` models a raised exception;
* sklearn's `cosine_similarity` as a function parameter returning
  `Option (List ℚ)` — `none` models a raised exception;
* `uuid.uuid4()` as a generator `Nat → String` (the i-th fresh id);
* the pickle file `vector_db.pkl` as an `Option Database` value.

NumPy's `argsort` is modelled as a stable ascending argsort (indices sorted
by value, ties by index); NumPy's ragged `np.array` construction and
`np.vstack` dimension mismatches are modelled as raised exceptions.
-/

/-- A metadata value: the Python dicts in the source hold strings and ints. -/
inductive MVal where
  | str (s : String)
  | nat (n : Nat)
deriving DecidableEq

/-- A metadata record: a Python dict mapping string keys to values. -/
abbrev Metadata := List (String × MVal)

/-- Which kind of object `self.embedding_model` currently holds
(`genai.Embedding()` or a `SentenceTransformer`). -/
inductive ModelKind where
  | googleModel
  | stModel
deriving DecidableEq

/-- The external embedding backends. Each call returns `some v` (the vector)
or `none` (the backend raised an exception). `googleDoc` is
`embed_content(..., task_type="retrieval_document")`, `googleQuery` is
`embed_content(..., task_type="retrieval_query")`, `stEncode` is
`SentenceTransformer.encode`. -/
structure Backend where
  googleDoc : String → Option (List ℚ)
  googleQuery : String → Option (List ℚ)
  stEncode : String → Option (List ℚ)

/-- The mutable state of a `VectorStore` instance (the fields assigned in
`__init__` and mutated by the methods; the storage directory is fixed). -/
structure VectorStore where
  embedding_provider : String
  model_name : String
  embedding_model : ModelKind
  documents : List String
  document_metadata : List Metadata
  embeddings : Option (List (List ℚ))
deriving DecidableEq

/-- The dictionary pickled by `save_database` / read by `load_database`. -/
structure Database where
  documents : List String
  document_metadata : List Metadata
  embeddings : Option (List (List ℚ))
  embedding_provider : String
  model_name : String
deriving DecidableEq

/-- One entry of the list returned by `search`:
`{"text": ..., "score": ..., "metadata": ...}`. -/
structure SearchResult where
  text : String
  score : ℚ
  metadata : Metadata
deriving DecidableEq

/-- Calling `.encode` on the current model object: a `SentenceTransformer`
runs `stEncode`; a google model object has no `encode` attribute, so the
call raises (`none`). -/
def stCall (B : Backend) (mk : ModelKind) (t : String) : Option (List ℚ) :=
  match mk with
  | .stModel => B.stEncode t
  | .googleModel => none

/-- Calling `.embed_content(..., task_type="retrieval_document")` on the
current model object; a `SentenceTransformer` has no such attribute, so the
call raises (`none`). -/
def googleDocCall (B : Backend) (mk : ModelKind) (t : String) : Option (List ℚ) :=
  match mk with
  | .googleModel => B.googleDoc t
  | .stModel => none

/-- Calling `.embed_content(..., task_type="retrieval_query")` on the
current model object (the query-embedding call inside `search`). -/
def googleQueryCall (B : Backend) (mk : ModelKind) (t : String) : Option (List ℚ) :=
  match mk with
  | .googleModel => B.googleQuery t
  | .stModel => none

/-- `VectorStore.embed_text` (lines 59–84): on the google path a failure
downgrades the provider permanently to sentence-transformers (guarded by the
`isinstance` check) and re-embeds with `encode`; the result is `none` when
the final call itself raises. Returns the result and the post-state. -/
def embed_text (B : Backend) (s : VectorStore) (t : String) :
    Option (List ℚ) × VectorStore :=
  if s.embedding_provider = "google" then
    match googleDocCall B s.embedding_model t with
    | some v => (some v, s)
    | none =>
      if s.embedding_model ≠ ModelKind.stModel then
        (B.stEncode t, { s with embedding_provider := "sentence_transformer",
                                embedding_model := ModelKind.stModel })
      else (stCall B s.embedding_model t, s)
  else (stCall B s.embedding_model t, s)

/-- The hard-coded fallback placeholder `np.zeros(768)` of
`add_documents` (line 116). -/
def zeroVec : List ℚ := List.replicate 768 0

/-- The embedding loop of `add_documents` (lines 108–116): embed each
document, catching exceptions and substituting `zeroVec`; the provider state
is threaded because `embed_text` may downgrade it. -/
def gatherEmbeds (B : Backend) : VectorStore → List String → List (List ℚ) × VectorStore
  | s, [] => ([], s)
  | s, d :: ds =>
    let (r, s') := embed_text B s d
    let (vs, s'') := gatherEmbeds B s' ds
    (r.getD zeroVec :: vs, s'')

/-- Whether `np.array` on this list of rows builds a proper 2-D array:
all rows must have equal length, else NumPy raises on the ragged input. -/
def rowsOk (E : List (List ℚ)) : Bool :=
  match E with
  | [] => true
  | r :: rs => rs.all (fun x => x.length = r.length)

/-- The metadata synthesized when the caller omits it (line 99):
`{"id": str(uuid.uuid4()), "index": i}` for each position. -/
def synthMeta (uuid : Nat → String) (n : Nat) : List Metadata :=
  (List.range n).map (fun i => [("id", MVal.str (uuid i)), ("index", MVal.nat i)])

/-- The pickled dictionary built by `save_database` from the current state. -/
def dbOf (s : VectorStore) : Database :=
  ⟨s.documents, s.document_metadata, s.embeddings, s.embedding_provider, s.model_name⟩

/-- The in-place extension of `documents`/`document_metadata`
(lines 104–105). -/
def extendSt (s : VectorStore) (docs : List String) (md : List Metadata) : VectorStore :=
  { s with documents := s.documents ++ docs,
           document_metadata := s.document_metadata ++ md }

/-- The body of `add_documents` after the argument checks (lines 103–128):
extend `documents`/`document_metadata`, run the embedding loop, build the new
rows with `np.array` (raises on ragged rows), `np.vstack` onto the existing
matrix (raises on a column-count mismatch), then save. The third component
is `some msg` when an exception escapes the method; the state and file
components are what the Python object and disk hold at that point. -/
def addCore (B : Backend) (s : VectorStore) (fs : Option Database)
    (docs : List String) (md : List Metadata) :
    VectorStore × Option Database × Option String :=
  let s1 := extendSt s docs md
  let newE := (gatherEmbeds B s1 docs).1
  let s2 := (gatherEmbeds B s1 docs).2
  if rowsOk newE then
    match s2.embeddings with
    | none =>
      let s3 := { s2 with embeddings := some newE }
      (s3, some (dbOf s3), none)
    | some E =>
      if (E.headD []).length = (newE.headD []).length then
        let s3 := { s2 with embeddings := some (E ++ newE) }
        (s3, some (dbOf s3), none)
      else (s2, fs, some "ValueError: vstack dimension mismatch")
  else (s2, fs, some "ValueError: ragged embedding array")

/-- `VectorStore.add_documents` (lines 86–128): returns immediately on an
empty batch; checks the explicit-metadata length (raising `ValueError` on a
mismatch before any mutation); otherwise synthesizes metadata when omitted
and runs `addCore`. -/
def add_documents (B : Backend) (uuid : Nat → String) (s : VectorStore)
    (fs : Option Database) (docs : List String) (metadata : Option (List Metadata)) :
    VectorStore × Option Database × Option String :=
  if docs.isEmpty then (s, fs, none)
  else
    match metadata with
    | none => addCore B s fs docs (synthMeta uuid docs.length)
    | some m =>
      if m.length ≠ docs.length then
        (s, fs, some "ValueError: Length of metadata must match length of documents")
      else addCore B s fs docs m

/-- The similarity value at index `i` (`similarities[idx]` as a total
function, defaulting to 0 out of range; in-range uses agree with the list). -/
def keyAt (key : List ℚ) (i : Nat) : ℚ := key.getD i 0

/-- Strict ascending order on indices of the similarity array: smaller value
first, ties by smaller index. This is the order a stable ascending argsort
realizes. -/
def rAsc (key : List ℚ) (i j : Nat) : Prop :=
  keyAt key i < keyAt key j ∨ (keyAt key i = keyAt key j ∧ i < j)

instance (key : List ℚ) (i j : Nat) : Decidable (rAsc key i j) := by
  unfold rAsc; infer_instance

/-- Ordered insertion of index `i` into a list of indices sorted by
`rAsc key`. -/
def insertIdx (key : List ℚ) (i : Nat) : List Nat → List Nat
  | [] => [i]
  | j :: js => if rAsc key i j then i :: j :: js else j :: insertIdx key i js

/-- `np.argsort(similarities)`: the indices `0..n-1` sorted in ascending
order of value. Tie order follows the stable model (value ties keep
ascending index order); NumPy's default sort realizes this on the small
arrays used here but does not guarantee it in general. -/
def argsort (key : List ℚ) : List Nat :=
  (List.range key.length).foldl (fun acc i => insertIdx key i acc) []

/-- Python's `l[-k:]` for a natural `k`: the last `k` elements — except that
`k = 0` denotes `l[0:]`, the whole list. -/
def pyLastSlice (l : List α) (k : Nat) : List α :=
  if k = 0 then l else l.drop (l.length - k)

/-- `np.argsort(similarities)[-k:][::-1]` (line 160): the selected indices,
best first. -/
def topIndices (key : List ℚ) (k : Nat) : List Nat :=
  (pyLastSlice (argsort key) k).reverse

/-- The query-embedding step of `search` (lines 146–153): google stores call
`embed_content(task_type="retrieval_query")` directly — with no fallback —
and the rest call `encode`. -/
def queryEmbed (B : Backend) (s : VectorStore) (q : String) : Option (List ℚ) :=
  if s.embedding_provider = "google" then googleQueryCall B s.embedding_model q
  else stCall B s.embedding_model q

/-- `VectorStore.search` (lines 130–174): empty guard, then a try-block that
embeds the query, computes similarities (`cos` models
`cosine_similarity(query_embedding, self.embeddings)[0]`), selects
`min(top_k, len(documents))` indices via `topIndices`, and builds the result
records; any exception (embedding failure, similarity failure, an
out-of-range index) yields `[]`. The method never assigns to `self`, so the
state is returned unchanged on every path. -/
def search (B : Backend) (cos : List ℚ → List (List ℚ) → Option (List ℚ))
    (s : VectorStore) (q : String) (top_k : Nat) :
    List SearchResult × VectorStore :=
  match s.embeddings with
  | none => ([], s)
  | some E =>
    if s.documents.isEmpty || E.isEmpty then ([], s)
    else
      match queryEmbed B s q with
      | none => ([], s)
      | some qv =>
        match cos qv E with
        | none => ([], s)
        | some sims =>
          let k := min top_k s.documents.length
          let ti := topIndices sims k
          match ti.mapM (fun i => do
              let t ← s.documents[i]?
              let sc ← sims[i]?
              let m ← s.document_metadata[i]?
              pure (SearchResult.mk t sc m)) with
          | none => ([], s)
          | some rs => (rs, s)

/-- `VectorStore.save_database` (lines 176–192): pickle the whole collection
to `vector_db.pkl` (nominal I/O success). -/
def save_database (s : VectorStore) : Option Database := some (dbOf s)

/-- `VectorStore.load_database` (lines 194–210): when the file exists, the
three collection fields are restored from it (the provider fields are not);
returns the post-state and the `True`/`False` result. -/
def load_database (s : VectorStore) (fs : Option Database) : VectorStore × Bool :=
  match fs with
  | none => (s, false)
  | some db =>
    ({ s with documents := db.documents,
              document_metadata := db.document_metadata,
              embeddings := db.embeddings }, true)

/-- The field state set up by `__init__` before `load_database` runs
(nominal provider construction). -/
def freshStore (p m : String) (mk : ModelKind) : VectorStore :=
  ⟨p, m, mk, [], [], none⟩

/-- A fresh `VectorStore(...)` over an existing storage directory:
`__init__` sets the fields and then calls `load_database` (line 57). -/
def initStore (p m : String) (mk : ModelKind) (fs : Option Database) : VectorStore :=
  (load_database (freshStore p m mk) fs).1

/-- The in-memory effect of `VectorStore.clear` (lines 212–226). -/
def clearStore (s : VectorStore) : VectorStore :=
  { s with documents := [], document_metadata := [], embeddings := none }

/-- `VectorStore.is_empty` (lines 228–235). -/
def is_empty (s : VectorStore) : Bool :=
  s.documents.isEmpty || s.embeddings.isNone

/-- The number of stored vectors (`len(self.embeddings)`, with the `None`
matrix counting as zero rows). -/
def vecCount (s : VectorStore) : Nat :=
  match s.embeddings with
  | none => 0
  | some E => E.length

/-- The spec's collection invariant:
`len(texts) == len(metadata) == len(vectors)`. -/
def StoreInv (s : VectorStore) : Prop :=
  s.document_metadata.length = s.documents.length ∧ vecCount s = s.documents.length

/-- The corresponding invariant on a persisted database file. -/
def FInv (fs : Option Database) : Prop :=
  ∀ db, fs = some db →
    db.document_metadata.length = db.documents.length ∧
    (match db.embeddings with | none => 0 | some E => E.length) = db.documents.length

/-- A store paired with its persisted file. -/
structure Sys where
  store : VectorStore
  file : Option Database

/-- The combined effect of `VectorStore.clear` (lines 212–226): empty the
in-memory collection and delete `vector_db.pkl` (nominal removal success). -/
def clearOp (σ : Sys) : Sys := ⟨clearStore σ.store, none⟩

/-- The states reachable from a fresh store over an empty directory through
operations that complete without raising: non-raising `add_documents` calls,
`search`, `clear`, and re-construction of a fresh instance over the current
file. -/
inductive Reachable : Sys → Prop where
  | init (p m : String) (mk : ModelKind) : Reachable ⟨freshStore p m mk, none⟩
  | add {σ : Sys} (B : Backend) (uuid : Nat → String) (docs : List String)
      (metadata : Option (List Metadata)) {s' : VectorStore} {fs' : Option Database} :
      Reachable σ →
      add_documents B uuid σ.store σ.file docs metadata = (s', fs', none) →
      Reachable ⟨s', fs'⟩
  | srch {σ : Sys} (B : Backend) (cos : List ℚ → List (List ℚ) → Option (List ℚ))
      (q : String) (k : Nat) :
      Reachable σ → Reachable ⟨(search B cos σ.store q k).2, σ.file⟩
  | clr {σ : Sys} : Reachable σ → Reachable (clearOp σ)
  | reload {σ : Sys} (p m : String) (mk : ModelKind) :
      Reachable σ → Reachable ⟨initStore p m mk σ.file, σ.file⟩

/-! ## Concrete fixtures used by counterexamples and witnesses -/

/-- A backend whose google calls always raise and whose
sentence-transformer encoder returns the 1-dimensional vector `[1]`. -/
def bGoogleFail : Backend := ⟨fun _ => none, fun _ => none, fun _ => some [1]⟩

/-- A google-provider store holding one document with a 1-dimensional
vector. -/
def sGoogle : VectorStore :=
  ⟨"google", "all-MiniLM-L6-v2", ModelKind.googleModel, ["a"],
   [[("id", MVal.str "u0"), ("index", MVal.nat 0)]], some [[1]]⟩

/-- A similarity oracle assigning every stored row the score 1 (as cosine
similarity does when all rows equal the query vector). -/
def cosOne : List ℚ → List (List ℚ) → Option (List ℚ) :=
  fun _ E => some (E.map (fun _ => 1))

/-- A sentence-transformer backend of embedding dimension 3 whose encoder
fails on the text `"b"`. -/
def bDim3 : Backend :=
  ⟨fun _ => none, fun _ => none,
   fun t => if t = "b" then none else some [1, 1, 1]⟩

/-- A fresh sentence-transformer store over the default model. -/
def sFresh : VectorStore :=
  freshStore "sentence_transformer" "all-MiniLM-L6-v2" ModelKind.stModel

/-- A persisted database holding one 2-dimensional vector. -/
def dbDim2 : Database :=
  ⟨["a"], [[("id", MVal.str "u0"), ("index", MVal.nat 0)]], some [[1, 2]],
   "sentence_transformer", "all-MiniLM-L6-v2"⟩

/-- A sentence-transformer store holding two documents with identical
1-dimensional vectors. -/
def sTwoDocs : VectorStore :=
  ⟨"sentence_transformer", "all-MiniLM-L6-v2", ModelKind.stModel, ["a", "b"],
   [[("id", MVal.str "u0"), ("index", MVal.nat 0)],
    [("id", MVal.str "u1"), ("index", MVal.nat 1)]],
   some [[1], [1]]⟩

/-- A similarity oracle scoring the two stored rows 1 and 2. -/
def cosSecond : List ℚ → List (List ℚ) → Option (List ℚ) := fun _ _ => some [1, 2]

/-- A sentence-transformer backend of embedding dimension 768 whose encoder
fails on the text `"b"`. -/
def bDim768 : Backend :=
  ⟨fun _ => none, fun _ => none,
   fun t => if t = "b" then none else some (List.replicate 768 1)⟩

/-! ## Helper lemmas -/

theorem zeroVec_length : zeroVec.length = 768 := by
  rw [zeroVec, List.length_replicate]

theorem isEmpty_false_of_ne_nil {α : Type} {l : List α} (h : l ≠ []) :
    l.isEmpty = false := by
  cases l with
  | nil => exact absurd rfl h
  | cons a l => rfl

theorem embed_text_frame (B : Backend) (s : VectorStore) (t : String) :
    (embed_text B s t).2.documents = s.documents ∧
    (embed_text B s t).2.document_metadata = s.document_metadata ∧
    (embed_text B s t).2.embeddings = s.embeddings ∧
    (embed_text B s t).2.model_name = s.model_name := by
  unfold embed_text
  repeat' split
  all_goals exact ⟨rfl, rfl, rfl, rfl⟩

theorem gatherEmbeds_cons (B : Backend) (s : VectorStore) (d : String) (ds : List String) :
    gatherEmbeds B s (d :: ds) =
      ((embed_text B s d).1.getD zeroVec :: (gatherEmbeds B (embed_text B s d).2 ds).1,
       (gatherEmbeds B (embed_text B s d).2 ds).2) := rfl

theorem gatherEmbeds_frame (B : Backend) (docs : List String) : ∀ (s : VectorStore),
    (gatherEmbeds B s docs).2.documents = s.documents ∧
    (gatherEmbeds B s docs).2.document_metadata = s.document_metadata ∧
    (gatherEmbeds B s docs).2.embeddings = s.embeddings ∧
    (gatherEmbeds B s docs).2.model_name = s.model_name ∧
    (gatherEmbeds B s docs).1.length = docs.length := by
  induction docs with
  | nil => exact fun s => ⟨rfl, rfl, rfl, rfl, rfl⟩
  | cons d ds ih =>
    intro s
    have h1 := embed_text_frame B s d
    have h2 := ih (embed_text B s d).2
    rw [gatherEmbeds_cons]
    refine ⟨?_, ?_, ?_, ?_, ?_⟩
    · exact h2.1.trans h1.1
    · exact h2.2.1.trans h1.2.1
    · exact h2.2.2.1.trans h1.2.2.1
    · exact h2.2.2.2.1.trans h1.2.2.2
    · simpa using h2.2.2.2.2

theorem gatherEmbeds_st (B : Backend) (docs : List String) : ∀ (s : VectorStore),
    s.embedding_provider ≠ "google" →
    gatherEmbeds B s docs =
      (docs.map (fun d => (stCall B s.embedding_model d).getD zeroVec), s) := by
  induction docs with
  | nil => exact fun s _ => rfl
  | cons d ds ih =>
    intro s hp
    have he : embed_text B s d = (stCall B s.embedding_model d, s) := by
      rw [embed_text, if_neg hp]
    rw [gatherEmbeds_cons, he]
    simp [ih s hp]

theorem rowsOk_of_all {E : List (List ℚ)} {n : Nat} (h : ∀ x ∈ E, x.length = n) :
    rowsOk E = true := by
  cases E with
  | nil => rfl
  | cons r rs =>
    simp only [rowsOk, List.all_eq_true, decide_eq_true_eq]
    intro x hx
    rw [h x (List.mem_cons_of_mem r hx), h r (List.mem_cons_self r rs)]

theorem search_state_eq (B : Backend) (cos : List ℚ → List (List ℚ) → Option (List ℚ))
    (s : VectorStore) (q : String) (top_k : Nat) : (search B cos s q top_k).2 = s := by
  unfold search
  repeat' split
  any_goals rfl
  dsimp only
  split <;> rfl

/-! ## Claims -/

/-- C10: for every store state, every query and every `topK`, `search`
leaves the entire store state unchanged — documents, metadata, embedding
matrix, provider name and model name are identical before and after the
call, whether the search succeeds or fails internally. (The source method
contains no file operation, so the persisted file is untouched as well:
`search` does not take the file as an input at all.) -/
theorem search_frame (B : Backend) (cos : List ℚ → List (List ℚ) → Option (List ℚ))
    (s : VectorStore) (q : String) (top_k : Nat) : (search B cos s q top_k).2 = s :=
  search_state_eq B cos s q top_k

/-- C7: saving the collection and then loading it into a fresh store
instance over the same storage directory reproduces the identical ordered
sequences of texts, metadata and vectors. -/
theorem save_load_roundtrip (s : VectorStore) (p m : String) (mk : ModelKind) :
    (initStore p m mk (save_database s)).documents = s.documents ∧
    (initStore p m mk (save_database s)).document_metadata = s.document_metadata ∧
    (initStore p m mk (save_database s)).embeddings = s.embeddings :=
  ⟨rfl, rfl, rfl⟩

/-- C9: after `clear()` on any store state the in-memory collection is
empty, `is_empty` returns true, the persisted file is gone (a fresh
instance's `load_database` finds nothing and reports `False`, starting
empty), and subsequent `search` calls return the empty sequence. -/
theorem clear_behavior (σ : Sys) (p m : String) (mk : ModelKind) (B : Backend)
    (cos : List ℚ → List (List ℚ) → Option (List ℚ)) (q : String) (k : Nat) :
    is_empty (clearOp σ).store = true ∧
    (clearOp σ).store.documents = [] ∧
    (clearOp σ).store.document_metadata = [] ∧
    (clearOp σ).file = none ∧
    load_database (freshStore p m mk) (clearOp σ).file = (freshStore p m mk, false) ∧
    (search B cos (clearOp σ).store q k).1 = [] :=
  ⟨rfl, rfl, rfl, rfl, rfl, rfl⟩

theorem search_eq_of_embeddings_none (B : Backend)
    (cos : List ℚ → List (List ℚ) → Option (List ℚ)) (s : VectorStore) (q : String)
    (k : Nat) (h : s.embeddings = none) : search B cos s q k = ([], s) := by
  unfold search
  rw [h]

theorem search_eq_of_docs_nil (B : Backend)
    (cos : List ℚ → List (List ℚ) → Option (List ℚ)) (s : VectorStore) (q : String)
    (k : Nat) (h : s.documents = []) : search B cos s q k = ([], s) := by
  simp only [search, h, List.isEmpty_nil, Bool.true_or, if_true]
  cases hE : s.embeddings <;> rfl

theorem search_eq_of_queryEmbed_none (B : Backend)
    (cos : List ℚ → List (List ℚ) → Option (List ℚ)) (s : VectorStore) (q : String)
    (k : Nat) (h : queryEmbed B s q = none) : search B cos s q k = ([], s) := by
  simp only [search, h, ite_self]
  cases hE : s.embeddings <;> rfl

theorem search_eq_of_cos_none (B : Backend)
    (cos : List ℚ → List (List ℚ) → Option (List ℚ)) (s : VectorStore) (q : String)
    (k : Nat) (E : List (List ℚ)) (qv : List ℚ) (hE : s.embeddings = some E)
    (hq : queryEmbed B s q = some qv) (hc : cos qv E = none) :
    search B cos s q k = ([], s) := by
  simp only [search, hE, hq, hc, ite_self]

/-- C6: `search` never raises: on an empty collection it returns the empty
sequence, and an internal failure of the query-embedding call or of the
similarity computation also yields the empty sequence (the body's
try/except) rather than a propagated exception. In the embedding, `search`
is a total function into result lists — there is no error outcome at all —
and each failure point returns `([], s)`. -/
theorem search_never_raises (B : Backend)
    (cos : List ℚ → List (List ℚ) → Option (List ℚ)) (s : VectorStore) (q : String)
    (top_k : Nat) :
    (s.documents = [] ∨ s.embeddings = none → search B cos s q top_k = ([], s)) ∧
    (queryEmbed B s q = none → search B cos s q top_k = ([], s)) ∧
    (∀ E qv, s.embeddings = some E → queryEmbed B s q = some qv → cos qv E = none →
      search B cos s q top_k = ([], s)) := by
  refine ⟨?_, ?_, ?_⟩
  · rintro (hd | he)
    · exact search_eq_of_docs_nil B cos s q top_k hd
    · exact search_eq_of_embeddings_none B cos s q top_k he
  · exact search_eq_of_queryEmbed_none B cos s q top_k
  · intro E qv hE hq hc
    exact search_eq_of_cos_none B cos s q top_k E qv hE hq hc

/-- Witness for C6 at concrete inputs: an empty store, and a google store
whose query-embedding call fails. -/
theorem search_never_raises_witness :
    search bGoogleFail cosOne sFresh "q" 5 = ([], sFresh) ∧
    search bGoogleFail cosOne sGoogle "q" 5 = ([], sGoogle) := by
  constructor
  · exact (search_never_raises bGoogleFail cosOne sFresh "q" 5).1 (Or.inl rfl)
  · exact (search_never_raises bGoogleFail cosOne sGoogle "q" 5).2.1 rfl

/-- C4 counterexample: the claim extends the one-time permanent provider
downgrade to role=query embedding, but the query-embedding call inside
`search` (lines 146–153) has no fallback at all: on `sGoogle` (a non-empty
google-provider store) with a backend whose google calls raise while its
sentence-transformer encoder works, `search` returns the empty list and the
provider is still `"google"` afterwards — no downgrade, no re-embedding. -/
theorem query_role_downgrade_counterexample :
    (search bGoogleFail cosOne sGoogle "q" 5).1 = [] ∧
    (search bGoogleFail cosOne sGoogle "q" 5).2.embedding_provider = "google" ∧
    bGoogleFail.stEncode "q" = some [1] :=
  ⟨rfl, rfl, rfl⟩

/-- C4 amended: only document-role embedding (`embed_text`) performs the
permanent downgrade — if the active provider is google and its call raises,
the state switches to the sentence-transformers provider for all subsequent
calls and the failing text is re-embedded with the fallback; once the
provider is no longer `"google"`, `embed_text` never touches the google
backend again. Query-role embedding inside `search` performs no downgrade:
a failing google query call yields the empty result with the state
unchanged. -/
theorem embed_text_downgrade (B : Backend) (s : VectorStore) (t u : String)
    (hp : s.embedding_provider = "google") (hm : s.embedding_model = ModelKind.googleModel)
    (hf : B.googleDoc t = none) :
    embed_text B s t =
      (B.stEncode t, { s with embedding_provider := "sentence_transformer",
                              embedding_model := ModelKind.stModel }) ∧
    (∀ s₂ : VectorStore, s₂.embedding_provider = "sentence_transformer" →
      embed_text B s₂ u = (stCall B s₂.embedding_model u, s₂)) ∧
    (∀ cos q k, B.googleQuery q = none → search B cos s q k = ([], s)) := by
  refine ⟨?_, ?_, ?_⟩
  · simp [embed_text, hp, hm, googleDocCall, hf, stCall]
  · intro s₂ h₂
    simp [embed_text, h₂]
  · intro cos q k hq
    apply search_eq_of_queryEmbed_none
    simp [queryEmbed, hp, hm, googleQueryCall, hq]

/-- Witness for C4 (amended) at concrete inputs. -/
theorem embed_text_downgrade_witness :
    embed_text bGoogleFail sGoogle "x" =
      (some [1],
       ⟨"sentence_transformer", "all-MiniLM-L6-v2", ModelKind.stModel, ["a"],
        [[("id", MVal.str "u0"), ("index", MVal.nat 0)]], some [[1]]⟩) ∧
    search bGoogleFail cosOne sGoogle "q" 3 = ([], sGoogle) := by
  have h := embed_text_downgrade bGoogleFail sGoogle "x" "q" rfl rfl rfl
  exact ⟨h.1, h.2.2 cosOne "q" 3 rfl⟩

/-- C5 counterexample: with empty `documents` and a non-empty explicit
metadata list the lengths differ, yet `add_documents` hits the
`if not documents: return` guard (line 94) first and returns silently — the
call is not rejected with a `ValueError`. (The collection is indeed left
untouched.) -/
theorem metadata_mismatch_counterexample :
    add_documents bGoogleFail (fun _ => "u") sFresh none []
        (some [[("id", MVal.str "x")]]) = (sFresh, none, none) ∧
    ([[("id", MVal.str "x")]] : List Metadata).length ≠ ([] : List String).length :=
  ⟨rfl, by decide⟩

/-- C5 amended: for a **non-empty** batch, an explicit metadata list whose
length differs from the texts raises `ValueError` before any mutation, with
the store and the persisted file exactly as before the call; for an empty
batch the method returns silently (also without mutation) regardless of the
metadata length. -/
theorem metadata_mismatch_rejected (B : Backend) (u : Nat → String) (s : VectorStore)
    (fs : Option Database) (docs : List String) (m : List Metadata)
    (hd : docs ≠ []) (hm : m.length ≠ docs.length) :
    add_documents B u s fs docs (some m) =
      (s, fs, some "ValueError: Length of metadata must match length of documents") := by
  have hd' : docs.isEmpty = false := by
    cases docs
    · exact absurd rfl hd
    · rfl
  simp [add_documents, hd', hm]

/-- Witness for C5 (amended) at concrete inputs. -/
theorem metadata_mismatch_rejected_witness :
    add_documents bGoogleFail (fun _ => "u") sFresh none ["a"] (some []) =
      (sFresh, none, some "ValueError: Length of metadata must match length of documents") :=
  metadata_mismatch_rejected bGoogleFail (fun _ => "u") sFresh none ["a"] []
    (by decide) (by decide)

/-- C8: the code performs no embedding-dimension validation. Loading a
persisted collection of 2-dimensional vectors into a store whose active
provider produces 3-dimensional vectors succeeds silently (`load_database`
restores the fields unexamined and returns `True`); the mismatch only
surfaces on a later append, where `np.vstack` raises *after* `documents`
and `document_metadata` were already extended — not the clean rejection the
spec requires. -/
theorem load_skips_dimension_validation :
    (initStore "sentence_transformer" "all-MiniLM-L6-v2" ModelKind.stModel
        (some dbDim2)).embeddings = some [[1, 2]] ∧
    (load_database sFresh (some dbDim2)).2 = true ∧
    (add_documents bDim3 (fun _ => "u")
        (initStore "sentence_transformer" "all-MiniLM-L6-v2" ModelKind.stModel (some dbDim2))
        (some dbDim2) ["c"] none).2.2 = some "ValueError: vstack dimension mismatch" ∧
    (add_documents bDim3 (fun _ => "u")
        (initStore "sentence_transformer" "all-MiniLM-L6-v2" ModelKind.stModel (some dbDim2))
        (some dbDim2) ["c"] none).1.documents = ["a", "c"] := by
  refine ⟨rfl, rfl, ?_, ?_⟩ <;> rfl

theorem synthMeta_length (u : Nat → String) (n : Nat) : (synthMeta u n).length = n := by
  simp [synthMeta]

theorem addCore_st_768 (B : Backend) (s : VectorStore) (fs : Option Database)
    (docs : List String) (md : List Metadata)
    (hp : s.embedding_provider ≠ "google")
    (hvec : ∀ d ∈ docs, ∀ v, stCall B s.embedding_model d = some v → v.length = 768)
    (hdim : s.embeddings = none ∨ ∃ E, s.embeddings = some E ∧ (E.headD []).length = 768)
    (hne : docs ≠ []) :
    ∃ s', addCore B s fs docs md = (s', some (dbOf s'), none) ∧
      s'.documents = s.documents ++ docs ∧
      s'.document_metadata = s.document_metadata ++ md ∧
      s'.embeddings = some (s.embeddings.getD [] ++
        docs.map (fun d => (stCall B s.embedding_model d).getD zeroVec)) := by
  have hall : ∀ x ∈ docs.map (fun d => (stCall B s.embedding_model d).getD zeroVec),
      x.length = 768 := by
    intro x hx
    obtain ⟨d, hd, hdx⟩ := List.mem_map.mp hx
    rcases hc : stCall B s.embedding_model d with _ | v
    · rw [← hdx, hc]
      exact zeroVec_length
    · rw [← hdx, hc]
      exact hvec d hd v hc
  unfold addCore
  dsimp only
  rw [gatherEmbeds_st B docs (extendSt s docs md) hp]
  dsimp only
  simp only [show (extendSt s docs md).embedding_model = s.embedding_model from rfl,
             show (extendSt s docs md).embeddings = s.embeddings from rfl]
  rw [rowsOk_of_all hall, if_pos rfl]
  rcases hdim with hnone | ⟨E, hE, hE768⟩
  · rw [hnone]
    exact ⟨_, rfl, rfl, rfl, rfl⟩
  · rw [hE]
    dsimp only
    have hhead : ((docs.map
        (fun d => (stCall B s.embedding_model d).getD zeroVec)).headD []).length = 768 := by
      cases docs with
      | nil => exact absurd rfl hne
      | cons d ds => exact hall _ (by simp)
    rw [if_pos (by rw [hE768, hhead])]
    exact ⟨_, rfl, rfl, rfl, rfl⟩

theorem vecCount_eq_getD (s : VectorStore) :
    vecCount s = (s.embeddings.getD []).length := by
  cases h : s.embeddings <;> simp [vecCount, h]

set_option maxRecDepth 8192 in
/-- C3 counterexample: the fallback placeholder is the hard-coded
`np.zeros(768)` — not a vector of the active provider's dimension. With the
3-dimensional provider `bDim3`, the failed chunk `"b"` yields the 768-zero
placeholder; the 3-chunk batch then raises from the ragged `np.array` and
stores **zero** records (while still extending the texts to 3), so the
collection does not grow by exactly 3 stored records. -/
theorem zero_vector_dim_counterexample :
    (gatherEmbeds bDim3 sFresh ["b"]).1 = [zeroVec] ∧
    zeroVec.length = 768 ∧
    (∀ v, bDim3.stEncode "a" = some v → v.length = 3) ∧
    (add_documents bDim3 (fun _ => "u") sFresh none ["a", "b", "c"] none).2.2 =
      some "ValueError: ragged embedding array" ∧
    (add_documents bDim3 (fun _ => "u") sFresh none
      ["a", "b", "c"] none).1.documents.length = 3 ∧
    vecCount (add_documents bDim3 (fun _ => "u") sFresh none ["a", "b", "c"] none).1 = 0 := by
  refine ⟨rfl, zeroVec_length, ?_, rfl, rfl, rfl⟩
  intro v hv
  injection hv with h
  rw [← h]
  rfl

/-- C3 amended: when an embedding call for a chunk fails (including after
the document-role fallback), `add_documents` substitutes the hard-coded
768-dimensional zero vector `np.zeros(768)` — not a vector of the active
provider's dimension. Consequently a batch with one failing chunk yields
exactly `docs.length` stored records, one of them the zero placeholder, and
grows the collection by exactly that much, **provided** the active
provider's successful embeddings are themselves 768-dimensional (and any
existing matrix is too); otherwise the batch raises instead (see the
counterexample). -/
theorem zero_vector_batch (B : Backend) (u : Nat → String) (s : VectorStore)
    (fs : Option Database) (docs : List String)
    (hp : s.embedding_provider ≠ "google")
    (hvec : ∀ d ∈ docs, ∀ v, stCall B s.embedding_model d = some v → v.length = 768)
    (hdim : s.embeddings = none ∨ ∃ E, s.embeddings = some E ∧ (E.headD []).length = 768)
    (hne : docs ≠ []) :
    ∃ s', add_documents B u s fs docs none = (s', some (dbOf s'), none) ∧
      s'.documents.length = s.documents.length + docs.length ∧
      vecCount s' = vecCount s + docs.length ∧
      (∀ d ∈ docs, stCall B s.embedding_model d = none →
        zeroVec ∈ s'.embeddings.getD []) := by
  obtain ⟨s', h1, h2, h3, h4⟩ :=
    addCore_st_768 B s fs docs (synthMeta u docs.length) hp hvec hdim hne
  refine ⟨s', ?_, ?_, ?_, ?_⟩
  · rw [add_documents, if_neg (by simp [isEmpty_false_of_ne_nil hne])]
    exact h1
  · rw [h2]
    simp
  · rw [vecCount_eq_getD, vecCount_eq_getD, h4]
    simp
  · intro d hd hfail
    rw [h4]
    simp only [Option.getD_some]
    apply List.mem_append_right
    exact List.mem_map.mpr ⟨d, hd, by rw [hfail]; rfl⟩

/-- Witness for C3 (amended): a 768-dimensional provider and a 3-chunk
batch whose middle chunk's embedding call fails. -/
theorem zero_vector_batch_witness :
    ∃ s', add_documents bDim768 (fun _ => "u") sFresh none ["a", "b", "c"] none =
        (s', some (dbOf s'), none) ∧
      s'.documents.length = sFresh.documents.length + 3 ∧
      vecCount s' = vecCount sFresh + 3 ∧
      zeroVec ∈ s'.embeddings.getD [] := by
  have hvec : ∀ d ∈ ["a", "b", "c"], ∀ v,
      stCall bDim768 sFresh.embedding_model d = some v → v.length = 768 := by
    intro d hd v hv
    have hd' : d = "a" ∨ d = "b" ∨ d = "c" := by simpa using hd
    rcases hd' with h | h | h <;> subst h
    · injection hv with h
      rw [← h, List.length_replicate]
    · exact Option.noConfusion hv
    · injection hv with h
      rw [← h, List.length_replicate]
  obtain ⟨s', h1, h2, h3, h4⟩ :=
    zero_vector_batch bDim768 (fun _ => "u") sFresh none ["a", "b", "c"]
      (by decide) hvec (Or.inl rfl) (by decide)
  exact ⟨s', h1, h2, h3, h4 "b" (by decide) rfl⟩

theorem FInv_some_dbOf {s : VectorStore} (h : StoreInv s) : FInv (some (dbOf s)) := by
  intro db hdb
  injection hdb with h'
  subst h'
  exact ⟨h.1, h.2⟩


theorem addCore_cases (B : Backend) (s : VectorStore) (fs : Option Database)
    (docs : List String) (md : List Metadata) (s' : VectorStore) (fs' : Option Database)
    (h : addCore B s fs docs md = (s', fs', none)) :
    s'.documents = s.documents ++ docs ∧
    s'.document_metadata = s.document_metadata ++ md ∧
    fs' = some (dbOf s') ∧
    ∃ newE : List (List ℚ), newE.length = docs.length ∧
      s'.embeddings = some (s.embeddings.getD [] ++ newE) := by
  obtain ⟨hgd, hgm, hge, hgn, hgl⟩ := gatherEmbeds_frame B docs (extendSt s docs md)
  rw [show (extendSt s docs md).embeddings = s.embeddings from rfl] at hge
  unfold addCore at h
  dsimp only at h
  split at h
  case isFalse hrows => exact absurd (congrArg (fun t => t.2.2) h) (by simp)
  case isTrue hrows =>
    rcases hE : (gatherEmbeds B (extendSt s docs md) docs).2.embeddings with _ | E
    · rw [hE] at h
      dsimp only at h
      rw [hge] at hE
      have h1 := congrArg Prod.fst h
      have h2 := congrArg (fun t => t.2.1) h
      dsimp only at h1 h2
      subst h1
      refine ⟨hgd.trans rfl, hgm.trans rfl,
        h2.symm, (gatherEmbeds B (extendSt s docs md) docs).1, hgl, ?_⟩
      rw [hE]
      rfl
    · rw [hE] at h
      dsimp only at h
      split at h
      case isFalse hdim => exact absurd (congrArg (fun t => t.2.2) h) (by simp)
      case isTrue hdim =>
        rw [hge] at hE
        have h1 := congrArg Prod.fst h
        have h2 := congrArg (fun t => t.2.1) h
        dsimp only at h1 h2
        subst h1
        refine ⟨hgd.trans rfl, hgm.trans rfl,
          h2.symm, (gatherEmbeds B (extendSt s docs md) docs).1, hgl, ?_⟩
        rw [hE]
        rfl

theorem add_ok_of_cases {s s' : VectorStore} {fs' : Option Database}
    {docs : List String} {md : List Metadata}
    (hInv : StoreInv s) (hmdl : md.length = docs.length)
    (hcd : s'.documents = s.documents ++ docs)
    (hcm : s'.document_metadata = s.document_metadata ++ md)
    (hcf : fs' = some (dbOf s'))
    (hex : ∃ newE : List (List ℚ), newE.length = docs.length ∧
      s'.embeddings = some (s.embeddings.getD [] ++ newE)) :
    StoreInv s' ∧ s'.documents.length = s.documents.length + docs.length ∧ FInv fs' := by
  obtain ⟨newE, hlen, hemb⟩ := hex
  have hg : (s.embeddings.getD []).length = s.documents.length :=
    (vecCount_eq_getD s).symm.trans hInv.2
  have hs' : StoreInv s' := by
    constructor
    · rw [hcm, hcd]
      simp [hInv.1, hmdl]
    · rw [vecCount_eq_getD, hemb, hcd]
      simp [hg, hlen]
  refine ⟨hs', ?_, ?_⟩
  · rw [hcd]
    simp
  · rw [hcf]
    exact FInv_some_dbOf hs'

theorem add_documents_ok (B : Backend) (u : Nat → String) (s : VectorStore)
    (fs : Option Database) (docs : List String) (metadata : Option (List Metadata))
    (s' : VectorStore) (fs' : Option Database)
    (hInv : StoreInv s) (hf : FInv fs)
    (h : add_documents B u s fs docs metadata = (s', fs', none)) :
    StoreInv s' ∧ s'.documents.length = s.documents.length + docs.length ∧ FInv fs' := by
  by_cases hd : docs.isEmpty
  · unfold add_documents at h
    rw [if_pos hd] at h
    have h1 := congrArg Prod.fst h
    have h2 := congrArg (fun t => t.2.1) h
    dsimp only at h1 h2
    subst h1
    have hd0 : docs.length = 0 := by
      cases docs with
      | nil => rfl
      | cons a l => exact absurd hd (by simp)
    rw [hd0]
    exact ⟨hInv, rfl, h2 ▸ hf⟩
  · unfold add_documents at h
    rw [if_neg hd] at h
    rcases metadata with _ | m
    · dsimp only at h
      obtain ⟨hcd, hcm, hcf, hex⟩ := addCore_cases B s fs docs (synthMeta u docs.length) s' fs' h
      exact add_ok_of_cases hInv (synthMeta_length u docs.length) hcd hcm hcf hex
    · dsimp only at h
      split at h
      next hm => exact absurd (congrArg (fun t => t.2.2) h) (by simp)
      next hm =>
        obtain ⟨hcd, hcm, hcf, hex⟩ := addCore_cases B s fs docs m s' fs' h
        exact add_ok_of_cases hInv (not_not.mp (fun hx => hm hx)) hcd hcm hcf hex

theorem reachable_inv {σ : Sys} (h : Reachable σ) : StoreInv σ.store ∧ FInv σ.file := by
  induction h with
  | init p m mk => exact ⟨⟨rfl, rfl⟩, fun db hdb => by cases hdb⟩
  | add B u docs metadata hr heq ih =>
    have := add_documents_ok B u _ _ docs metadata _ _ ih.1 ih.2 heq
    exact ⟨this.1, this.2.2⟩
  | srch B cos q k hr ih => simpa [search_state_eq] using ih
  | clr hr ih => exact ⟨⟨rfl, rfl⟩, fun db hdb => by cases hdb⟩
  | reload p m mk hr ih =>
    rename_i σ'
    refine ⟨?_, ih.2⟩
    rcases hfs : σ'.file with _ | db
    · exact ⟨rfl, rfl⟩
    · have hdb := ih.2 db hfs
      exact ⟨hdb.1, hdb.2⟩

set_option maxRecDepth 8192 in
/-- C2 counterexample: on the reachable fresh store (default provider
`all-MiniLM-L6-v2`, whose vectors are not 768-dimensional — here modelled by
the 3-dimensional `bDim3`), a 2-chunk batch whose second embedding fails
mixes a 3-dimensional vector with the 768-dimensional zero placeholder:
`np.array` raises *after* `documents`/`document_metadata` were extended, so
the resulting state has 2 texts but 0 vectors —
`len(texts) == len(vectors)` is violated. -/
theorem collection_invariant_counterexample :
    Reachable ⟨sFresh, none⟩ ∧
    (add_documents bDim3 (fun _ => "u") sFresh none ["a", "b"] none).1.documents.length = 2 ∧
    vecCount (add_documents bDim3 (fun _ => "u") sFresh none ["a", "b"] none).1 = 0 ∧
    (add_documents bDim3 (fun _ => "u") sFresh none ["a", "b"] none).2.2 =
      some "ValueError: ragged embedding array" :=
  ⟨Reachable.init "sentence_transformer" "all-MiniLM-L6-v2" ModelKind.stModel, rfl, rfl, rfl⟩

/-- C2 amended: `len(texts) == len(metadata) == len(vectors)` holds on every
state reachable through operations that complete **without raising**; in
particular a non-raising `add_documents` grows the collection by exactly the
batch size and preserves the invariant. (An `add_documents` call in which a
failed embedding's 768-dimensional zero placeholder meets vectors of a
different dimension raises from `np.array`/`np.vstack` after extending
`documents`/`document_metadata` but before extending the matrix, violating
the invariant — see the counterexample.) -/
theorem collection_invariant {σ : Sys} (h : Reachable σ) :
    StoreInv σ.store ∧
    ∀ B u docs metadata s' fs',
      add_documents B u σ.store σ.file docs metadata = (s', fs', none) →
      StoreInv s' ∧ s'.documents.length = σ.store.documents.length + docs.length := by
  have hi := reachable_inv h
  refine ⟨hi.1, ?_⟩
  intro B u docs metadata s' fs' hadd
  have hok := add_documents_ok B u σ.store σ.file docs metadata s' fs' hi.1 hi.2 hadd
  exact ⟨hok.1, hok.2.1⟩

/-- Witness for C2 (amended): the fresh store is reachable and satisfies the
invariant; a concrete non-raising one-chunk append grows it from 0 to 1 and
keeps the invariant. -/
theorem collection_invariant_witness :
    StoreInv sFresh ∧
    StoreInv (add_documents bDim3 (fun _ => "u") sFresh none ["a"] none).1 ∧
    (add_documents bDim3 (fun _ => "u") sFresh none ["a"] none).1.documents.length = 0 + 1 := by
  have h := collection_invariant
    (Reachable.init "sentence_transformer" "all-MiniLM-L6-v2" ModelKind.stModel)
  have h2 := h.2 bDim3 (fun _ => "u") ["a"] none
    (add_documents bDim3 (fun _ => "u") sFresh none ["a"] none).1
    (add_documents bDim3 (fun _ => "u") sFresh none ["a"] none).2.1 rfl
  exact ⟨h.1, h2.1, h2.2⟩

theorem rAsc_trans {key : List ℚ} {i j k : Nat} (h1 : rAsc key i j) (h2 : rAsc key j k) :
    rAsc key i k := by
  rcases h1 with h1 | ⟨h1e, h1l⟩ <;> rcases h2 with h2 | ⟨h2e, h2l⟩
  · exact Or.inl (h1.trans h2)
  · exact Or.inl (lt_of_lt_of_eq h1 h2e)
  · exact Or.inl (lt_of_eq_of_lt h1e h2)
  · exact Or.inr ⟨h1e.trans h2e, h1l.trans h2l⟩

theorem rAsc_of_not {key : List ℚ} {i j : Nat} (hne : i ≠ j) (h : ¬ rAsc key i j) :
    rAsc key j i := by
  rcases lt_trichotomy (keyAt key i) (keyAt key j) with hlt | heq | hgt
  · exact absurd (Or.inl hlt) h
  · rcases Nat.lt_trichotomy i j with hl | he | hg
    · exact absurd (Or.inr ⟨heq, hl⟩) h
    · exact absurd he hne
    · exact Or.inr ⟨heq.symm, hg⟩
  · exact Or.inl hgt

theorem mem_insertIdx (key : List ℚ) (i a : Nat) (l : List Nat) :
    a ∈ insertIdx key i l ↔ a = i ∨ a ∈ l := by
  induction l with
  | nil => simp [insertIdx]
  | cons j js ih =>
    unfold insertIdx
    split
    · simp [List.mem_cons]
    · simp only [List.mem_cons, ih]
      tauto

theorem length_insertIdx (key : List ℚ) (i : Nat) (l : List Nat) :
    (insertIdx key i l).length = l.length + 1 := by
  induction l with
  | nil => rfl
  | cons j js ih =>
    unfold insertIdx
    split
    · rfl
    · simp only [List.length_cons, ih]

theorem nodup_insertIdx (key : List ℚ) (i : Nat) (l : List Nat) (hi : i ∉ l)
    (h : l.Nodup) : (insertIdx key i l).Nodup := by
  induction l with
  | nil => simp [insertIdx]
  | cons j js ih =>
    have hij : i ≠ j := fun he => hi (he ▸ List.mem_cons_self j js)
    have hijs : i ∉ js := fun hm => hi (List.mem_cons_of_mem j hm)
    rw [List.nodup_cons] at h
    unfold insertIdx
    split
    · exact List.nodup_cons.mpr ⟨hi, List.nodup_cons.mpr h⟩
    · refine List.nodup_cons.mpr ⟨?_, ih hijs h.2⟩
      rw [mem_insertIdx]
      rintro (he | hm)
      · exact hij he.symm
      · exact h.1 hm

theorem pairwise_insertIdx (key : List ℚ) (i : Nat) (l : List Nat) (hi : i ∉ l)
    (h : l.Pairwise (rAsc key)) : (insertIdx key i l).Pairwise (rAsc key) := by
  induction l with
  | nil => simp [insertIdx]
  | cons j js ih =>
    have hij : i ≠ j := fun he => hi (he ▸ List.mem_cons_self j js)
    have hijs : i ∉ js := fun hm => hi (List.mem_cons_of_mem j hm)
    rw [List.pairwise_cons] at h
    unfold insertIdx
    split
    case isTrue hr =>
      refine List.pairwise_cons.mpr ⟨?_, List.pairwise_cons.mpr h⟩
      intro a ha
      rcases List.mem_cons.mp ha with he | hmem
      · subst he
        exact hr
      · exact rAsc_trans hr (h.1 a hmem)
    case isFalse hr =>
      refine List.pairwise_cons.mpr ⟨?_, ih hijs h.2⟩
      intro a ha
      rcases (mem_insertIdx key i a js).mp ha with he | hmem
      · subst he
        exact rAsc_of_not hij hr
      · exact h.1 a hmem

theorem foldl_insertIdx_spec (key : List ℚ) :
    ∀ (l acc : List Nat), (∀ a ∈ l, a ∉ acc) → l.Nodup → acc.Nodup →
    acc.Pairwise (rAsc key) →
    ((l.foldl (fun t i => insertIdx key i t) acc).Pairwise (rAsc key) ∧
     (l.foldl (fun t i => insertIdx key i t) acc).Nodup ∧
     (∀ a, a ∈ l.foldl (fun t i => insertIdx key i t) acc ↔ a ∈ acc ∨ a ∈ l) ∧
     (l.foldl (fun t i => insertIdx key i t) acc).length = acc.length + l.length) := by
  intro l
  induction l with
  | nil =>
    intro acc hdis hln han hap
    exact ⟨hap, han, fun a => by simp, by simp⟩
  | cons i l ih =>
    intro acc hdis hln han hap
    rw [List.foldl_cons]
    have hia : i ∉ acc := hdis i (List.mem_cons_self i l)
    have hdis' : ∀ a ∈ l, a ∉ insertIdx key i acc := by
      intro a ha hmem
      rcases (mem_insertIdx key i a acc).mp hmem with he | hmm
      · subst he
        exact (List.nodup_cons.mp hln).1 ha
      · exact hdis a (List.mem_cons_of_mem i ha) hmm
    obtain ⟨p1, p2, p3, p4⟩ := ih (insertIdx key i acc) hdis' (List.nodup_cons.mp hln).2
      (nodup_insertIdx key i acc hia han) (pairwise_insertIdx key i acc hia hap)
    refine ⟨p1, p2, ?_, ?_⟩
    · intro a
      rw [p3 a, mem_insertIdx]
      simp only [List.mem_cons]
      tauto
    · rw [p4, length_insertIdx]
      simp only [List.length_cons]
      omega

theorem argsort_spec (key : List ℚ) :
    (argsort key).Pairwise (rAsc key) ∧
    (∀ a, a ∈ argsort key ↔ a < key.length) ∧
    (argsort key).length = key.length := by
  obtain ⟨p1, p2, p3, p4⟩ := foldl_insertIdx_spec key (List.range key.length) []
    (by simp) (List.nodup_range _) List.nodup_nil List.Pairwise.nil
  unfold argsort
  refine ⟨p1, ?_, by simpa using p4⟩
  intro a
  rw [p3 a]
  simp [List.mem_range]

theorem pyLastSlice_sublist {α : Type} (l : List α) (k : Nat) :
    (pyLastSlice l k).Sublist l := by
  unfold pyLastSlice
  split
  · exact List.Sublist.refl l
  · exact List.drop_sublist _ _

theorem topIndices_pairwise (key : List ℚ) (k : Nat) :
    (topIndices key k).Pairwise (fun i j => rAsc key j i) := by
  unfold topIndices
  rw [List.pairwise_reverse]
  exact ((argsort_spec key).1).sublist (pyLastSlice_sublist (argsort key) k)

theorem topIndices_length (key : List ℚ) {k : Nat} (hk : 1 ≤ k) :
    (topIndices key k).length = min k key.length := by
  unfold topIndices pyLastSlice
  rw [if_neg (by omega)]
  rw [List.length_reverse, List.length_drop, (argsort_spec key).2.2]
  omega

theorem topIndices_mem (key : List ℚ) (k : Nat) {a : Nat} (h : a ∈ topIndices key k) :
    a < key.length := by
  unfold topIndices at h
  rw [List.mem_reverse] at h
  exact ((argsort_spec key).2.1 a).mp ((pyLastSlice_sublist (argsort key) k).subset h)

theorem mapM_lookup (ds : List String) (ss : List ℚ) (ms : List Metadata)
    (hs : ss.length = ds.length) (hm : ms.length = ds.length) :
    ∀ ti : List Nat, (∀ i ∈ ti, i < ds.length) →
    ti.mapM (fun i => do
        let t ← ds[i]?
        let sc ← ss[i]?
        let m ← ms[i]?
        pure (SearchResult.mk t sc m)) =
      some (ti.map (fun i =>
        SearchResult.mk (ds.getD i "") (keyAt ss i) (ms.getD i []))) := by
  intro ti
  induction ti with
  | nil => intro _; rfl
  | cons i ti ih =>
    intro hlt
    have hi : i < ds.length := hlt i (List.mem_cons_self i ti)
    have hi2 : i < ss.length := by rw [hs]; exact hi
    have hi3 : i < ms.length := by rw [hm]; exact hi
    have ih' := ih (fun a ha => hlt a (List.mem_cons_of_mem i ha))
    rw [List.mapM_cons, List.getElem?_eq_getElem hi, List.getElem?_eq_getElem hi2,
      List.getElem?_eq_getElem hi3, ih']
    simp [keyAt, List.getD_eq_getElem?_getD, List.getElem?_eq_getElem, hi, hi2, hi3]

/-- C1 counterexample: two records with identical vectors tie in score.
`np.argsort(sims)[-k:][::-1]` (with `argsort` modelled as the stable
ascending sort) places the **later-inserted** record first, not the
earlier-inserted one the claim requires; and for `topK = 0` the Python slice
`[-0:]` is the whole array, so `search` returns all 2 records instead of at
most `min(0, 2) = 0`. (NumPy's actual default sort is an unstable introsort,
so the tie order is not even guaranteed stable as the claim asserts; on
2-element arrays it performs a stable insertion sort, matching this model.) -/
theorem search_tie_order_counterexample :
    (search bGoogleFail cosOne sTwoDocs "q" 2).1 =
      [SearchResult.mk "b" 1 [("id", MVal.str "u1"), ("index", MVal.nat 1)],
       SearchResult.mk "a" 1 [("id", MVal.str "u0"), ("index", MVal.nat 0)]] ∧
    (search bGoogleFail cosOne sTwoDocs "q" 0).1.length = 2 :=
  ⟨rfl, rfl⟩

/-- C1 amended: for a non-empty collection, `topK ≥ 1`, and a successful
query embedding and similarity computation, `search` returns exactly
`min(topK, size)` results — the records selected by
`topIndices` (the model of `argsort(sims)[-k:][::-1]` with a stable
argsort), which are ordered by non-increasing score with ties broken by
**descending** insertion index (the later-inserted record first). For
`topK = 0` the slice returns the whole collection (see the
counterexample). -/
theorem search_ranking (B : Backend) (cos : List ℚ → List (List ℚ) → Option (List ℚ))
    (s : VectorStore) (q : String) (top_k : Nat) (E : List (List ℚ)) (qv sims : List ℚ)
    (hE : s.embeddings = some E) (hE0 : E ≠ []) (hd : s.documents ≠ [])
    (hq : queryEmbed B s q = some qv) (hc : cos qv E = some sims)
    (hn : sims.length = s.documents.length)
    (hmd : s.document_metadata.length = s.documents.length)
    (hk : 1 ≤ top_k) :
    (search B cos s q top_k).1 =
      (topIndices sims (min top_k s.documents.length)).map
        (fun i => SearchResult.mk (s.documents.getD i "") (keyAt sims i)
          (s.document_metadata.getD i [])) ∧
    (search B cos s q top_k).1.length = min top_k s.documents.length ∧
    (topIndices sims (min top_k s.documents.length)).Pairwise
      (fun i j => keyAt sims j < keyAt sims i ∨
        (keyAt sims j = keyAt sims i ∧ j < i)) := by
  have hmem : ∀ i ∈ topIndices sims (min top_k s.documents.length), i < s.documents.length := by
    intro i hi
    have := topIndices_mem sims _ hi
    omega
  have heq : search B cos s q top_k =
      ((topIndices sims (min top_k s.documents.length)).map
        (fun i => SearchResult.mk (s.documents.getD i "") (keyAt sims i)
          (s.document_metadata.getD i [])), s) := by
    unfold search
    rw [hE]
    dsimp only
    rw [if_neg (by simp [isEmpty_false_of_ne_nil hd, isEmpty_false_of_ne_nil hE0]), hq]
    dsimp only
    rw [hc]
    dsimp only
    rw [mapM_lookup s.documents sims s.document_metadata hn hmd
      (topIndices sims (min top_k s.documents.length)) hmem]
  refine ⟨by rw [heq], ?_, ?_⟩
  · rw [heq]
    dsimp only
    rw [List.length_map, topIndices_length]
    · omega
    · have h1 : 1 ≤ s.documents.length := List.length_pos.mpr hd
      omega
  · exact topIndices_pairwise sims (min top_k s.documents.length)

/-- Witness for C1 (amended) at concrete inputs: two stored records scored
1 and 2; `topK = 1` returns exactly the single best record. -/
theorem search_ranking_witness :
    (search bGoogleFail cosSecond sTwoDocs "q" 1).1 =
      [SearchResult.mk "b" 2 [("id", MVal.str "u1"), ("index", MVal.nat 1)]] ∧
    (search bGoogleFail cosSecond sTwoDocs "q" 1).1.length = 1 := by
  have h := search_ranking bGoogleFail cosSecond sTwoDocs "q" 1 [[1], [1]] [1] [1, 2]
    rfl (by decide) (by decide) rfl rfl rfl rfl (by decide)
  exact ⟨h.1.trans (by decide), h.2.1⟩
